import Mathlib

/-!
Verification of the generated Go data-access runtime emitted by djan-go-rm.

The repository is a code generator: the Go runtime it emits per Django model is
contained verbatim in the `_model_template` string of `src/djan-go-rm.py`, and
the per-model SQL statement strings are computed by `Model.generate` in the same
file.  This development shallowly embeds both: the statement-string computations
are transcribed from `Model.generate`, and the generated method bodies
(queryset filters, compilation, persistence) are transcribed from the template.

The `models` helper package (PositionalCounter, ConstantFragment, UnaryFragment,
AndFragment, OrFragment) ships as `static/interface.go`, which is not part of
the sources here; its compilation rules are modelled from the specification
(spec section 4.2) and are marked `Modelled from the spec:` below.
-/

namespace DjanGoRm

/-- A SQL parameter value (Go `interface{}` as passed to pgx). -/
inductive Val where
  | vint (i : Int)
  | vstr (s : String)
  | vbool (b : Bool)
  | vnull
deriving DecidableEq, Repr

/-- Store-level errors.  `noRows` models `pgx.ErrNoRows`; `scan` models a
`rows.Scan` type-mismatch failure; `store n` is an opaque store error. -/
inductive Err where
  | noRows
  | scan
  | store (n : Nat)
deriving DecidableEq, Repr

/-- One call issued to the injected store abstraction (`models.DBInterface`). -/
inductive DBCall where
  | queryRow (sql : String) (params : List Val)
  | query (sql : String) (params : List Val)
  | exec (sql : String) (params : List Val)
deriving DecidableEq, Repr

/-- The injected store abstraction (`models.DBInterface`): `queryRow` returns
the decoded row that `row.Scan` would deliver (or the scan error, `Err.noRows`
when no row matched); `query` returns the row set together with the terminal
`rows.Err()` value; `exec` returns the affected-row count. -/
structure DB where
  queryRow : String → List Val → Except Err (List Val)
  query : String → List Val → Except Err (List (List Val) × Option Err)
  exec : String → List Val → Except Err Int

/-- Modelled from the spec: `models.PositionalCounter.Get` (the models helper
package is not under src/).  A per-statement sequence generator producing the
successive placeholder tokens `$1, $2, ...` (spec sections 2 and 6). -/
def pcGet (c : Nat) : String × Nat :=
  ("$" ++ toString (c + 1), c + 1)

/-- Requests `n` successive tokens from the counter, as the generated
`for range in { params = append(params, c.Get()) }` loop does. -/
def pcGetN : Nat → Nat → List String × Nat
  | 0, c => ([], c)
  | n + 1, c =>
      let (t, c') := pcGet c
      let (ts, c'') := pcGetN n c'
      (t :: ts, c'')

/-- Condition-fragment algebra.  `const` is `models.ConstantFragment`, `unary`
is `models.UnaryFragment`, `orF` is `models.OrFragment` (each group being one
queryset's `condFragments`), `inList`/`notinList` are the generated
`in<Field>`/`notin<Field>` list-membership fragments, and `inSubquery` is the
generated foreign-key `in<Model><Field><Rel>` fragment, which stores the
correlated queryset; only its `condFragments` and the related model's
`select_id_stmt` are consulted by `QueryId`, so those are what it carries. -/
inductive Frag where
  | const (text : String)
  | unary (frag : String) (param : Val)
  | orF (groups : List (List Frag))
  | inList (col : String) (vals : List Val)
  | notinList (col : String) (vals : List Val)
  | inSubquery (selectIdStmt : String) (col : String) (subConds : List Frag)

mutual

/-- `GetConditionFragment` of a single fragment: returns the SQL text, the
ordered parameters, and the advanced counter.  `const` and `unary` are
Modelled from the spec (section 4.2): a constant returns its fixed text with no
params; a unary fragment requests one token and returns `"<op> <token>"` with
the single param.  `orF` compiles each group AND-joined, sharing the counter,
joined with " OR " and parenthesized (spec section 4.2).  The list-membership
and subquery cases are transcribed from the generated code
(src/djan-go-rm.py lines 426-468 and 370-390): an EMPTY list returns the
constant text "false" with no params in BOTH the `in` and the `notin` variant
(the notin empty branch of the source also returns `false`). -/
def Frag.compile : Frag → Nat → String × List Val × Nat
  | .const t, c => (t, [], c)
  | .unary f p, c =>
      let (tok, c') := pcGet c
      (f ++ " " ++ tok, [p], c')
  | .orF groups, c =>
      let (ts, ps, c') := compileGroups groups c
      ("(" ++ String.intercalate " OR " ts ++ ")", ps, c')
  | .inList col vals, c =>
      if vals.isEmpty then ("false", [], c)
      else
        let (toks, c') := pcGetN vals.length c
        (col ++ " IN (" ++ String.intercalate ", " toks ++ ")", vals, c')
  | .notinList col vals, c =>
      if vals.isEmpty then ("false", [], c)
      else
        let (toks, c') := pcGetN vals.length c
        (col ++ " NOT IN (" ++ String.intercalate ", " toks ++ ")", vals, c')
  | .inSubquery stmt col sub, c =>
      if sub.isEmpty then (col ++ " IN (" ++ stmt ++ ")", [], c)
      else
        let (ts, ps, c') := compileEach sub c
        (col ++ " IN (" ++ stmt ++ " WHERE " ++ String.intercalate " AND " ts ++ ")", ps, c')

/-- Compiles a list of fragments in order with one shared counter, returning
the individual texts, the concatenated params and the advanced counter
(the loop inside `models.AndFragment.GetConditionFragment`, spec 4.2). -/
def compileEach : List Frag → Nat → List String × List Val × Nat
  | [], c => ([], [], c)
  | f :: rest, c =>
      let (t, p, c') := f.compile c
      let (ts, ps, c'') := compileEach rest c'
      (t :: ts, p ++ ps, c'')

/-- Compiles the groups of an `OrFragment`: each group is AND-joined, all
groups share the counter (spec 4.2). -/
def compileGroups : List (List Frag) → Nat → List String × List Val × Nat
  | [], c => ([], [], c)
  | g :: rest, c =>
      let (ts, ps, c') := compileEach g c
      let (gts, gps, c'') := compileGroups rest c'
      (String.intercalate " AND " ts :: gts, ps ++ gps, c'')

end

/-- `qs.whereClause(c)` from the template (src/djan-go-rm.py lines 537-545):
empty condition list yields no WHERE clause; otherwise the AND-joined
conditions prefixed with " WHERE ". -/
def whereCompile (conds : List Frag) (c : Nat) : String × List Val × Nat :=
  if conds.isEmpty then ("", [], c)
  else
    let (ts, ps, c') := compileEach conds c
    (" WHERE " ++ String.intercalate " AND " ts, ps, c')

end DjanGoRm

namespace DjanGoRm

/-- One concrete column of a generated model, with the attributes
`Model.generate` consults: database column name, `Field.autofield`, and
whether it is the primary key. -/
structure GoField where
  dbColumn : String
  autofield : Bool
  isPk : Bool
deriving DecidableEq, Repr

/-- The per-model data `Model.generate` works from: the database table name
and the ordered concrete fields. -/
structure GoSchema where
  dbTable : String
  fields : List GoField
deriving DecidableEq, Repr

/-- Double-quoted SQL identifier, as `"\"{}\"".format(...)` in the source. -/
def quoteId (s : String) : String :=
  "\"" ++ s ++ "\""

/-- `Model.pk`: the unique primary-key field (generation fails unless there is
exactly one; our concrete schemas all have exactly one). -/
def GoSchema.pk (m : GoSchema) : GoField :=
  (m.fields.find? (·.isPk)).getD ⟨"", false, false⟩

/-- `Model.user_fields`: concrete fields that are neither autofields nor the
primary key (src/djan-go-rm.py lines 939-942). -/
def GoSchema.userFields (m : GoSchema) : List GoField :=
  m.fields.filter (fun f => !f.autofield && !f.isPk)

/-- `Model.auto_fields`: the autogenerated fields (read back upon insert). -/
def GoSchema.autoFields (m : GoSchema) : List GoField :=
  m.fields.filter (·.autofield)

/-- `select_stmt` (src/djan-go-rm.py lines 959-962). -/
def GoSchema.selectStmt (m : GoSchema) : String :=
  "SELECT " ++ String.intercalate ", " (m.fields.map (fun f => quoteId f.dbColumn))
    ++ " FROM " ++ quoteId m.dbTable

/-- `select_id_stmt` (src/djan-go-rm.py lines 964-967). -/
def GoSchema.selectIdStmt (m : GoSchema) : String :=
  "SELECT " ++ quoteId m.pk.dbColumn ++ " FROM " ++ quoteId m.dbTable

/-- `select_count_stmt` (src/djan-go-rm.py lines 968-971). -/
def GoSchema.selectCountStmt (m : GoSchema) : String :=
  "SELECT COUNT(" ++ quoteId m.pk.dbColumn ++ ") FROM " ++ quoteId m.dbTable

/-- `insert_fields = user_fields + ([pk] if pk is not an autofield else [])`
(src/djan-go-rm.py lines 973-975). -/
def GoSchema.insertFields (m : GoSchema) : List GoField :=
  m.userFields ++ (if !m.pk.autofield then [m.pk] else [])

/-- `insert_stmt_column_count` (src/djan-go-rm.py line 985). -/
def GoSchema.insertColCount (m : GoSchema) : Nat :=
  m.insertFields.length

/-- `batch_insert_stmt` (src/djan-go-rm.py lines 977-980). -/
def GoSchema.batchInsertStmt (m : GoSchema) : String :=
  "INSERT INTO " ++ quoteId m.dbTable ++ " ("
    ++ String.intercalate ", " (m.insertFields.map (fun f => quoteId f.dbColumn))
    ++ ") VALUES"

/-- `batch_insert_returning` (src/djan-go-rm.py lines 990-994); only used when
autogenerated fields exist. -/
def GoSchema.batchInsertReturning (m : GoSchema) : String :=
  "RETURNING " ++ String.intercalate ", " (m.autoFields.map (fun f => quoteId f.dbColumn))

/-- `insert_stmt` (src/djan-go-rm.py lines 981-984 and 995): the single-row
insert, with ` RETURNING ...` appended when autogenerated fields exist. -/
def GoSchema.insertStmt (m : GoSchema) : String :=
  m.batchInsertStmt ++ " ("
    ++ String.intercalate ", " ((List.range m.insertColCount).map (fun i => "$" ++ toString (i + 1)))
    ++ ")"
    ++ (if m.autoFields.isEmpty then "" else " " ++ m.batchInsertReturning)

/-- One `fmt.Sprintf("($%d, ..., $%d)", offs + 0, ..., offs + k - 1)` VALUES
tuple of the batch insert (`insert_stmt_values_template`,
src/djan-go-rm.py lines 986-989). -/
def GoSchema.valuesTuple (m : GoSchema) (offs : Nat) : String :=
  "(" ++ String.intercalate ", " ((List.range m.insertColCount).map (fun i => "$" ++ toString (offs + i))) ++ ")"

/-- `update_stmt` (src/djan-go-rm.py lines 999-1004): all user fields keyed by
primary key, with fixed placeholder numbers. -/
def GoSchema.updateStmt (m : GoSchema) : String :=
  "UPDATE " ++ quoteId m.dbTable ++ " SET "
    ++ String.intercalate ", "
        (m.userFields.enum.map (fun p => quoteId p.2.dbColumn ++ " = $" ++ toString (p.1 + 1)))
    ++ " WHERE " ++ quoteId m.pk.dbColumn ++ " = $" ++ toString (m.userFields.length + 1)

/-- `delete_stmt` (src/djan-go-rm.py lines 1007-1010). -/
def GoSchema.deleteStmt (m : GoSchema) : String :=
  "DELETE FROM " ++ quoteId m.dbTable ++ " WHERE " ++ quoteId m.pk.dbColumn ++ " = $1"

/-- `update_qs_stmt` (src/djan-go-rm.py line 1012). -/
def GoSchema.updateQsStmt (m : GoSchema) : String :=
  "UPDATE " ++ quoteId m.dbTable ++ " SET "

/-- `delete_qs_stmt` (src/djan-go-rm.py line 1013). -/
def GoSchema.deleteQsStmt (m : GoSchema) : String :=
  "DELETE FROM " ++ quoteId m.dbTable

/-- The spec's running example model `T(id autopk, name string)` restricted to
the columns the claims exercise: an autogenerated integer primary key and one
user column. -/
def modelT : GoSchema :=
  ⟨"t", [⟨"id", true, true⟩, ⟨"name", false, false⟩]⟩

/-- A model with two user columns, `U(id autopk, a string, b string)`, used to
exhibit the batch-insert placeholder stride (which equals its per-row insert
column count, 2). -/
def modelU : GoSchema :=
  ⟨"u", [⟨"id", true, true⟩, ⟨"a", false, false⟩, ⟨"b", false, false⟩]⟩

/-- Generated queryset value (`<Model>QS`): accumulated condition fragments,
order-by clauses and the row-locking clause (template lines 258-263).  This
list-valued form models a builder value as observed through its own slice
header; the Go slice backing-array semantics of `filter` is modelled
separately below for the branching claim. -/
structure QS where
  condFragments : List Frag := []
  order : List String := []
  forClause : String := ""

/-- `qs.filter(c, p)` (template lines 265-274): appends a `UnaryFragment`. -/
def QS.filter (qs : QS) (c : String) (p : Val) : QS :=
  { qs with condFragments := qs.condFragments ++ [Frag.unary c p] }

/-- `qs.orderByClause()` (template lines 547-553). -/
def QS.orderByClause (qs : QS) : String :=
  if qs.order.isEmpty then ""
  else " ORDER BY " ++ String.intercalate ", " qs.order

/-- `qs.queryFull()` (template lines 555-563): fresh counter, WHERE clause,
order-by, locking clause, prefixed with the model's `select_stmt`. -/
def queryFull (m : GoSchema) (qs : QS) : String × List Val :=
  let (s, p, _) := whereCompile qs.condFragments 0
  (m.selectStmt ++ s ++ qs.orderByClause ++ qs.forClause, p)

/-- `qs.QueryId(c)` (template lines 565-570): statement and parameters for
embedding in an IN clause, compiled with the caller's counter. -/
def queryId (m : GoSchema) (conds : List Frag) (c : Nat) : String × List Val × Nat :=
  let (s, p, c') := whereCompile conds c
  (m.selectIdStmt ++ s, p, c')

end DjanGoRm

namespace DjanGoRm

/-- A Go slice backing array: a list of slots (slots beyond the slice length
hold whatever was last written there, `Frag.const ""` when fresh). -/
abbrev GoArray := List Frag

/-- The heap of allocated backing arrays, addressed by allocation order. -/
abbrev Heap := List GoArray

/-- A Go slice header: backing-array address, length, capacity. -/
structure GoSlice where
  arr : Nat
  len : Nat
  cap : Nat
deriving DecidableEq, Repr

/-- The backing array a heap address refers to. -/
def heapArr (h : Heap) (i : Nat) : GoArray :=
  h.getD i []

/-- Writes one slot of a backing array in place. -/
def arrWrite (h : Heap) (i : Nat) (idx : Nat) (x : Frag) : Heap :=
  h.set i ((heapArr h i).set idx x)

/-- Go's `append(s, x)` for a fragment slice: when spare capacity exists the
element is written into the SHARED backing array at index `len`; otherwise a
new array of doubled capacity (1 from empty) is allocated and the live prefix
copied.  This is the runtime behavior the generated `filter` relies on. -/
def goAppend (h : Heap) (s : GoSlice) (x : Frag) : Heap × GoSlice :=
  if s.len < s.cap then
    (arrWrite h s.arr s.len x, ⟨s.arr, s.len + 1, s.cap⟩)
  else
    let newcap := if s.cap = 0 then 1 else 2 * s.cap
    let newarr := ((heapArr h s.arr).take s.len ++ [x])
      ++ List.replicate (newcap - (s.len + 1)) (Frag.const "")
    (h ++ [newarr], ⟨h.length, s.len + 1, newcap⟩)

/-- The fragment sequence a slice value denotes: the first `len` slots of its
backing array. -/
def sliceView (h : Heap) (s : GoSlice) : List Frag :=
  (heapArr h s.arr).take s.len

/-- A generated queryset value with its `condFragments` slice held as a real
Go slice header over the shared heap (template lines 258-263). -/
structure GoQS where
  condFragments : GoSlice
  order : List String := []
  forClause : String := ""

/-- `qs.filter(c, p)` (template lines 265-274) under Go slice semantics: the
receiver is a by-value copy of the header, and `append` may write through the
shared backing array. -/
def goFilter (h : Heap) (qs : GoQS) (c : String) (p : Val) : Heap × GoQS :=
  let (h', s') := goAppend h qs.condFragments (Frag.unary c p)
  (h', { qs with condFragments := s' })

/-- `qs.queryFull()` of a slice-backed queryset: compiles the fragments the
slice currently denotes. -/
def goQueryFull (m : GoSchema) (h : Heap) (qs : GoQS) : String × List Val :=
  queryFull m { condFragments := sliceView h qs.condFragments,
                order := qs.order, forClause := qs.forClause }

/-- The empty (nil-slice) queryset and empty heap. -/
def c1Q0 : GoQS := { condFragments := ⟨0, 0, 0⟩ }

/-- Three chained filters build the base: the third append leaves the base
slice with length 3 over a capacity-4 backing array. -/
def c1S1 : Heap × GoQS := goFilter [] c1Q0 "\"f1\" =" (Val.vint 11)

def c1S2 : Heap × GoQS := goFilter c1S1.1 c1S1.2 "\"f2\" =" (Val.vint 12)

def c1Base : Heap × GoQS := goFilter c1S2.1 c1S2.2 "\"f3\" =" (Val.vint 13)

/-- First branch built from the base, filtering on parameter 1. -/
def c1SA : Heap × GoQS := goFilter c1Base.1 c1Base.2 "\"x\" =" (Val.vint 1)

/-- The first branch's compiled output taken before the second branch exists. -/
def c1Before : String × List Val := goQueryFull modelT c1SA.1 c1SA.2

/-- Second branch built from the SAME base after the first, filtering on
parameter 2: spare capacity remains, so the append overwrites the shared
backing-array slot the first branch's fragment lives in. -/
def c1SB : Heap × GoQS := goFilter c1SA.1 c1Base.2 "\"x\" =" (Val.vint 2)

/-- The first branch's compiled output taken again after the second branch was
created. -/
def c1After : String × List Val := goQueryFull modelT c1SB.1 c1SA.2

end DjanGoRm

namespace DjanGoRm

/-- C1: branching a base queryset (three accumulated filters, so its slice has
length 3 over a capacity-4 backing array) into two variants via `filter` lets
the second branch's append overwrite the shared backing-array slot holding the
first branch's fragment: the first branch's compiled output is
`... "x" = $4` with parameter 1 before the second branch is created, and the
SAME builder value compiles with parameter 2 afterwards.  This refutes the
claim that the two branches' compiled SQL/params are independent. -/
theorem c1_branch_aliasing :
    c1Before = ("SELECT \"id\", \"name\" FROM \"t\" WHERE \"f1\" = $1 AND \"f2\" = $2 AND \"f3\" = $3 AND \"x\" = $4",
      [Val.vint 11, Val.vint 12, Val.vint 13, Val.vint 1])
    ∧ c1After = ("SELECT \"id\", \"name\" FROM \"t\" WHERE \"f1\" = $1 AND \"f2\" = $2 AND \"f3\" = $3 AND \"x\" = $4",
      [Val.vint 11, Val.vint 12, Val.vint 13, Val.vint 2])
    ∧ c1Before ≠ c1After := by
  have h1 : c1Before = ("SELECT \"id\", \"name\" FROM \"t\" WHERE \"f1\" = $1 AND \"f2\" = $2 AND \"f3\" = $3 AND \"x\" = $4",
      [Val.vint 11, Val.vint 12, Val.vint 13, Val.vint 1]) := by
    simp [c1Before, c1SA, c1Base, c1S2, c1S1, c1Q0, goFilter, goAppend, arrWrite, heapArr,
      sliceView, goQueryFull, queryFull, whereCompile, compileEach, Frag.compile, pcGet,
      modelT, GoSchema.selectStmt, quoteId, QS.orderByClause]
    rfl
  have h2 : c1After = ("SELECT \"id\", \"name\" FROM \"t\" WHERE \"f1\" = $1 AND \"f2\" = $2 AND \"f3\" = $3 AND \"x\" = $4",
      [Val.vint 11, Val.vint 12, Val.vint 13, Val.vint 2]) := by
    simp [c1After, c1SB, c1SA, c1Base, c1S2, c1S1, c1Q0, goFilter, goAppend, arrWrite, heapArr,
      sliceView, goQueryFull, queryFull, whereCompile, compileEach, Frag.compile, pcGet,
      modelT, GoSchema.selectStmt, quoteId, QS.orderByClause]
    rfl
  refine ⟨h1, h2, ?_⟩
  rw [h1, h2]
  decide

end DjanGoRm

namespace DjanGoRm

/-- The generated record struct for `modelT` (template lines 247-253): the
hidden `existsInDB` flag plus one member per concrete column. -/
structure TRec where
  existsInDB : Bool
  id : Int
  name : String
deriving DecidableEq, Repr

/-- `rows.Scan(&obj.id, &obj.Name)` for `modelT`: decodes one returned row
into the two concrete columns, failing on shape/type mismatch. -/
def decodeT : List Val → Option (Int × String)
  | [Val.vint i, Val.vstr s] => some (i, s)
  | _ => none

/-- A Go `TList` slice value as observed by the caller: `none` is the nil
slice, `some l` a non-nil slice holding `l`. -/
abbrev GoListT := Option (List TRec)

/-- Go `append` for the result slice of `All`, as far as nil-ness and contents
are observable: appending to nil allocates. -/
def goAppendT : GoListT → TRec → GoListT
  | none, x => some [x]
  | some l, x => some (l ++ [x])

/-- The SELECT statement `All` executes (template lines 585-589: `queryFull`). -/
def tAllStmt (qs : QS) : String :=
  (queryFull modelT qs).1

/-- The parameters `All` (and `First`) pass to the store. -/
def tAllParams (qs : QS) : List Val :=
  (queryFull modelT qs).2

/-- The row loop of `All` (template lines 595-602): `ret` starts as the nil
slice, every row is scanned into a new record with `existsInDB: true`; a scan
failure returns `nil, err`. -/
def tAllLoop : List (List Val) → GoListT → GoListT × Option Err
  | [], acc => (acc, none)
  | r :: rest, acc =>
      match decodeT r with
      | some p => tAllLoop rest (goAppendT acc ⟨true, p.1, p.2⟩)
      | none => (none, some Err.scan)

/-- `qs.All(ctx, db)` (template lines 585-605): on query error returns
`nil, err`; otherwise scans every row and returns the accumulated slice with
no error (the terminal `rows.Err()` is never consulted). -/
def tAll (db : DB) (qs : QS) : GoListT × Option Err :=
  match db.query (tAllStmt qs) (tAllParams qs) with
  | .error e => (none, some e)
  | .ok rr => tAllLoop rr.1 none

/-- The statement `First` executes (template lines 607-611): `queryFull` plus
`" LIMIT 1"`. -/
def tFirstStmt (qs : QS) : String :=
  (queryFull modelT qs).1 ++ " LIMIT 1"

/-- `qs.First(ctx, db)` (template lines 607-625): scans the single row into a
record created with `existsInDB: true`; the error switch maps `nil` to the
populated record, `pgx.ErrNoRows` to `(nil, nil)`, anything else (including a
scan failure) to `(nil, err)`. -/
def tFirst (db : DB) (qs : QS) : Option TRec × Option Err :=
  match db.queryRow (tFirstStmt qs) (tAllParams qs) with
  | .ok r =>
      match decodeT r with
      | some p => (some ⟨true, p.1, p.2⟩, none)
      | none => (none, some Err.scan)
  | .error Err.noRows => (none, none)
  | .error e => (none, some e)

/-- The single-row insert statement of `modelT`
(`INSERT INTO "t" ("name") VALUES ($1) RETURNING "id"`). -/
def tInsertStmt : String :=
  modelT.insertStmt

/-- `row.Scan(&t.id)` of the insert read-back: decodes the single RETURNING
column of `modelT`, failing on shape/type mismatch. -/
def decodeTAuto : List Val → Option Int
  | [Val.vint i] => some i
  | _ => none

/-- `t.insert(ctx, db)` (template lines 728-747, autofield variant): issues
`QueryRow` with the insert statement, scans the autogenerated id back; only
when that succeeds does it set `existsInDB = true`. -/
def tInsert (db : DB) (e : TRec) : List DBCall × TRec × Option Err :=
  match db.queryRow tInsertStmt [Val.vstr e.name] with
  | .error er => ([DBCall.queryRow tInsertStmt [Val.vstr e.name]], e, some er)
  | .ok r =>
      match decodeTAuto r with
      | some i =>
          ([DBCall.queryRow tInsertStmt [Val.vstr e.name]],
           { e with id := i, existsInDB := true }, none)
      | none => ([DBCall.queryRow tInsertStmt [Val.vstr e.name]], e, some Err.scan)

/-- `t.update(ctx, db)` (template lines 749-754): executes the fixed
per-record UPDATE keyed by primary key; the record is not mutated. -/
def tUpdate (db : DB) (e : TRec) : List DBCall × TRec × Option Err :=
  match db.exec modelT.updateStmt [Val.vstr e.name, Val.vint e.id] with
  | .error er => ([DBCall.exec modelT.updateStmt [Val.vstr e.name, Val.vint e.id]], e, some er)
  | .ok _ => ([DBCall.exec modelT.updateStmt [Val.vstr e.name, Val.vint e.id]], e, none)

/-- `t.Save(ctx, db)` (template lines 756-763): update when `existsInDB`,
insert otherwise. -/
def tSave (db : DB) (e : TRec) : List DBCall × TRec × Option Err :=
  if e.existsInDB then tUpdate db e else tInsert db e

/-- `t.Delete(ctx, db)` (template lines 765-772): executes the DELETE, then
UNCONDITIONALLY sets `existsInDB = false` before returning the store error. -/
def tDelete (db : DB) (e : TRec) : List DBCall × TRec × Option Err :=
  let call := DBCall.exec modelT.deleteStmt [Val.vint e.id]
  let e' := { e with existsInDB := false }
  match db.exec modelT.deleteStmt [Val.vint e.id] with
  | .error er => ([call], e', some er)
  | .ok _ => ([call], e', none)

/-- Generated update-queryset value (`<Model>UpdateQS`, template lines
648-652): accumulated assignment fragments plus the frozen WHERE fragments. -/
structure UQS where
  updates : List Frag := []
  condFragments : List Frag := []

/-- `qs.Update()` (template lines 642-646): pivots a queryset into an update
queryset carrying its condition fragments. -/
def QS.update (qs : QS) : UQS :=
  { condFragments := qs.condFragments }

/-- `uqs.update(c, v)` (template lines 654-671): appends a constant
`c = NULL` fragment for a nil value, else a unary `c =` fragment. -/
def uqsSet (uqs : UQS) (c : String) (v : Option Val) : UQS :=
  match v with
  | none => { uqs with updates := uqs.updates ++ [Frag.const (c ++ " = NULL")] }
  | some w => { uqs with updates := uqs.updates ++ [Frag.unary (c ++ " =") w] }

/-- The generated `IDEq` filter of `modelT` (template lines 394-397). -/
def tIDEq (qs : QS) (v : Int) : QS :=
  qs.filter "\"id\" =" (Val.vint v)

/-- The generated `SetName` of `modelT`'s update queryset (template lines
687-690). -/
def tSetName (uqs : UQS) (v : String) : UQS :=
  uqsSet uqs "\"name\"" (some (Val.vstr v))

/-- The compilation step of `uqs.Exec` (template lines 702-718): one fresh
counter shared by the assignment fragments (compiled first) and the frozen
WHERE clause; the parameter list is assignment params then WHERE params. -/
def uqsCompile (m : GoSchema) (uqs : UQS) : String × List Val :=
  let (sets, ps, c1) := compileEach uqs.updates 0
  let (ws, wp, _) := whereCompile uqs.condFragments c1
  (m.updateQsStmt ++ String.intercalate ", " sets ++ ws, ps ++ wp)

/-- `uqs.Exec(ctx, db)` (template lines 696-726): with no accumulated
assignments returns `(0, nil)` without any store call; otherwise compiles and
executes, returning the affected-row count or the propagated error. -/
def uqsExec (m : GoSchema) (db : DB) (uqs : UQS) : List DBCall × Except Err Int :=
  if uqs.updates.isEmpty then ([], .ok 0)
  else
    let (st, ps) := uqsCompile m uqs
    match db.exec st ps with
    | .error er => ([DBCall.exec st ps], .error er)
    | .ok n => ([DBCall.exec st ps], .ok n)

end DjanGoRm

namespace DjanGoRm

/-- The generated record struct for `modelU`. -/
structure URec where
  existsInDB : Bool
  id : Int
  a : String
  b : String
deriving DecidableEq, Repr

/-- The store call `u.update(ctx, db)` issues for `modelU` (`update_members`
is the user fields followed by the primary key). -/
def uUpdateCall (e : URec) : DBCall :=
  DBCall.exec modelU.updateStmt [Val.vstr e.a, Val.vstr e.b, Val.vint e.id]

/-- The first loop of `UList.Save` (template lines 776-786): each record with
`existsInDB` is updated individually (propagating the first error); the
others are collected, in order, for the batch insert. -/
def uPass1 (db : DB) : List URec → List DBCall × Except Err (List URec)
  | [] => ([], .ok [])
  | e :: rest =>
      if e.existsInDB then
        match db.exec modelU.updateStmt [Val.vstr e.a, Val.vstr e.b, Val.vint e.id] with
        | .error er => ([uUpdateCall e], .error er)
        | .ok _ =>
            let (t, r) := uPass1 db rest
            (uUpdateCall e :: t, r)
      else
        let (t, r) := uPass1 db rest
        (t, r.map (e :: ·))

/-- The batch-building loop of `UList.Save` (template lines 792-799): `offs`
starts at 1 and advances by `insert_stmt_column_count` per row; each row
contributes one `insert_stmt_values_template` tuple to `vva` and its
`insert_members` (here `u.A, u.B`) to `vaa`. -/
def uBatchLoop : List URec → Nat → List String × List Val
  | [], _ => ([], [])
  | e :: rest, offs =>
      let (vv, va) := uBatchLoop rest (offs + modelU.insertColCount)
      (modelU.valuesTuple offs :: vv, Val.vstr e.a :: Val.vstr e.b :: va)

/-- The RETURNING consumption loop of `UList.Save` (template lines 817-828):
rows are consumed in the same order the records were submitted; a missing row
returns `rows.Err()`; each successfully scanned record gets its autogenerated
id and `existsInDB = true`. -/
def uScan : List (List Val) → Option Err → List URec → List URec × Option Err
  | _, _, [] => ([], none)
  | [], rerr, e :: rest => (e :: rest, rerr)
  | r :: rows, rerr, e :: rest =>
      match r with
      | [Val.vint i] =>
          let (l, er) := uScan rows rerr rest
          ({ e with id := i, existsInDB := true } :: l, er)
      | _ => (e :: rest, some Err.scan)

/-- Reassembles the caller's list after the batch: the inserted records are
pointers into the original list, so the updated insert records replace the
non-`existsInDB` entries in order. -/
def uMerge : List URec → List URec → List URec
  | [], _ => []
  | e :: rest, news =>
      if e.existsInDB then e :: uMerge rest news
      else
        match news with
        | n :: ns => n :: uMerge rest ns
        | [] => e :: uMerge rest []

/-- `UList.Save(ctx, db)` (template lines 774-831, autofield variant):
individual updates for existing records, then a single multi-row INSERT with
one VALUES tuple per new record and a single RETURNING clause, whose rows are
scanned back in submission order. -/
def uListSave (db : DB) (l : List URec) : List DBCall × List URec × Option Err :=
  match uPass1 db l with
  | (t, .error er) => (t, l, some er)
  | (t, .ok inserts) =>
      if inserts.isEmpty then (t, l, none)
      else
        let (vva, vaa) := uBatchLoop inserts 1
        let qstr := modelU.batchInsertStmt ++ " " ++ String.intercalate ", " vva
          ++ " " ++ modelU.batchInsertReturning
        match db.query qstr vaa with
        | .error er => (t ++ [DBCall.query qstr vaa], l, some er)
        | .ok rr =>
            let (news, er) := uScan rr.1 rr.2 inserts
            (t ++ [DBCall.query qstr vaa], uMerge l news, er)

/-- The batch INSERT statement `UList.Save` builds for a list with `n` new
records: one placeholder tuple per row, the i-th row's placeholders offset by
`1 + insert-column-count * i`. -/
def uBatchStmt (n : Nat) : String :=
  modelU.batchInsertStmt ++ " "
    ++ String.intercalate ", "
        ((List.range n).map (fun i => modelU.valuesTuple (1 + modelU.insertColCount * i)))
    ++ " " ++ modelU.batchInsertReturning

/-- The flattened parameter list of the batch INSERT: each new record's
insert members in submission order. -/
def uBatchParams : List URec → List Val
  | [] => []
  | e :: rest => Val.vstr e.a :: Val.vstr e.b :: uBatchParams rest

/-- The intended final state of a batch-saved list: existing records are
untouched, the i-th new record receives the i-th RETURNING id and has its
existence flag set. -/
def uMergeSpec : List URec → List Int → List URec
  | [], _ => []
  | e :: rest, ids =>
      if e.existsInDB then e :: uMergeSpec rest ids
      else
        match ids with
        | i :: is' => { e with id := i, existsInDB := true } :: uMergeSpec rest is'
        | [] => e :: uMergeSpec rest []

end DjanGoRm

namespace DjanGoRm

/-- A store whose calls all succeed trivially (no row for `queryRow`, empty
row set for `query`, one affected row for `exec`). -/
def dbOk : DB :=
  ⟨fun _ _ => .error Err.noRows, fun _ _ => .ok ([], none), fun _ _ => .ok 1⟩

/-- A store whose every call fails with the opaque error `store 3`. -/
def dbDown : DB :=
  ⟨fun _ _ => .error (Err.store 3), fun _ _ => .error (Err.store 3),
   fun _ _ => .error (Err.store 3)⟩

/-- C2: evaluating list-membership compilation.  For the empty value list the
non-negated form compiles to the constant guard `false` with no parameters and
an unchanged counter — but so does the NEGATED form: the generated
`notin<Field>` fragment also returns `false` (src/djan-go-rm.py lines
458-460), not the tautology `true` the claim states.  For n values, exactly n
tokens are requested and the n values are returned as parameters in order. -/
theorem c2_empty_membership_guards :
    Frag.compile (Frag.inList "\"x\"" []) 7 = ("false", [], 7)
    ∧ Frag.compile (Frag.notinList "\"x\"" []) 7 = ("false", [], 7)
    ∧ Frag.compile (Frag.inList "\"x\"" [Val.vint 4, Val.vint 5, Val.vint 6]) 0 =
        ("\"x\" IN ($1, $2, $3)", [Val.vint 4, Val.vint 5, Val.vint 6], 3)
    ∧ Frag.compile (Frag.notinList "\"x\"" [Val.vint 4, Val.vint 5]) 0 =
        ("\"x\" NOT IN ($1, $2)", [Val.vint 4, Val.vint 5], 2) := by
  refine ⟨?_, ?_, ?_, ?_⟩ <;> (simp [Frag.compile, pcGetN, pcGet]) <;> rfl

/-- C7: `Delete` on a persisted record against a failing store executes the
DELETE, returns the propagated error — and still clears `existsInDB` to
false.  The flag clearing is unconditional (src/djan-go-rm.py lines 765-772),
contradicting the claim that the flag is left unchanged on store error. -/
theorem c7_delete_clears_flag_despite_error :
    tDelete dbDown ⟨true, 7, "n"⟩ =
      ([DBCall.exec "DELETE FROM \"t\" WHERE \"id\" = $1" [Val.vint 7]],
       ⟨false, 7, "n"⟩, some (Err.store 3)) := by
  rfl

/-- C5: `Exec` on an update queryset with zero accumulated assignments returns
affected count 0 and no error, without issuing any store call. -/
theorem c5_exec_without_assignments (m : GoSchema) (db : DB) (uqs : UQS)
    (h : uqs.updates = []) :
    uqsExec m db uqs = ([], .ok 0) := by
  simp [uqsExec, h]

/-- Witness for C5: a freshly pivoted update queryset (filters but no
assignments) executes to `(0, ok)` with an empty call trace. -/
theorem c5_exec_without_assignments_witness :
    uqsExec modelT dbOk (QS.update (tIDEq {} 5)) = ([], .ok 0) :=
  c5_exec_without_assignments modelT dbOk _ rfl

/-- C4: with at least one assignment, `Exec` issues exactly the compiled
UPDATE; the compilation threads ONE counter through the assignment fragments
first and the frozen WHERE fragments after, and returns the assignment
parameters followed by the WHERE parameters; on the spec's example —
`SetName("y")` over a queryset pre-filtered by id = 5 — this yields
`UPDATE "t" SET "name" = $1 WHERE "id" = $2` with params `["y", 5]`. -/
theorem c4_update_exec_shared_counter (db : DB) (uqs : UQS)
    (h : uqs.updates ≠ []) :
    (uqsExec modelT db uqs).1 =
        [DBCall.exec (uqsCompile modelT uqs).1 (uqsCompile modelT uqs).2]
    ∧ uqsCompile modelT uqs =
        (modelT.updateQsStmt
            ++ String.intercalate ", " (compileEach uqs.updates 0).1
            ++ (whereCompile uqs.condFragments (compileEach uqs.updates 0).2.2).1,
         (compileEach uqs.updates 0).2.1
            ++ (whereCompile uqs.condFragments (compileEach uqs.updates 0).2.2).2.1)
    ∧ uqsCompile modelT (tSetName (QS.update (tIDEq {} 5)) "y") =
        ("UPDATE \"t\" SET \"name\" = $1 WHERE \"id\" = $2", [Val.vstr "y", Val.vint 5]) := by
  refine ⟨?_, ?_, ?_⟩
  · have hne : uqs.updates.isEmpty = false := by
      cases hu : uqs.updates with
      | nil => exact absurd hu h
      | cons a t => simp
    simp only [uqsExec, hne, Bool.false_eq_true, if_false]
    rcases db.exec (uqsCompile modelT uqs).1 (uqsCompile modelT uqs).2 with er | n <;> rfl
  · unfold uqsCompile
    rcases hc : compileEach uqs.updates 0 with ⟨sets, ps, c1⟩
    rcases hw : whereCompile uqs.condFragments c1 with ⟨ws, wp, c2⟩
    simp [hc, hw]
  · simp [uqsCompile, tSetName, uqsSet, QS.update, tIDEq, QS.filter, compileEach,
      Frag.compile, pcGet, whereCompile, modelT, GoSchema.updateQsStmt, quoteId]
    rfl

/-- Witness for C4: the spec's example update queryset (one assignment over an
id filter) issues exactly its compiled UPDATE statement. -/
theorem c4_update_exec_shared_counter_witness :
    (uqsExec modelT dbOk (tSetName (QS.update (tIDEq {} 5)) "y")).1 =
      [DBCall.exec (uqsCompile modelT (tSetName (QS.update (tIDEq {} 5)) "y")).1
        (uqsCompile modelT (tSetName (QS.update (tIDEq {} 5)) "y")).2] :=
  (c4_update_exec_shared_counter dbOk _ (List.cons_ne_nil _ _)).1

end DjanGoRm

namespace DjanGoRm

/-- Inversion for the row scan of `modelT`: a successful scan pins the row's
shape and values. -/
theorem decodeT_some (r : List Val) (p : Int × String) (h : decodeT r = some p) :
    r = [Val.vint p.1, Val.vstr p.2] := by
  unfold decodeT at h
  split at h
  · rcases h with ⟨⟩
    rfl
  · exact absurd h (by simp)

/-- C3: `First` executes exactly the `All` statement with `" LIMIT 1"`
appended (same parameters), and its result separates the three outcomes:
`(nil, nil)` exactly when the store reported no matching row; a populated
record with `existsInDB = true` and no error exactly when the store returned
that row; any returned record is accompanied by no error, carries the
existence flag, and matches the store's row; and a store failure other than
no-rows yields a nil record together with THAT VERY error, propagated
verbatim (last conjunct). -/
theorem c3_first_three_outcomes (db : DB) (qs : QS) :
    tFirstStmt qs = tAllStmt qs ++ " LIMIT 1"
    ∧ (tFirst db qs = (none, none) ↔
        db.queryRow (tFirstStmt qs) (tAllParams qs) = .error Err.noRows)
    ∧ (∀ i : Int, ∀ n : String,
        tFirst db qs = (some ⟨true, i, n⟩, none) ↔
          db.queryRow (tFirstStmt qs) (tAllParams qs) = .ok [Val.vint i, Val.vstr n])
    ∧ (∀ ent : TRec, ∀ er : Option Err,
        tFirst db qs = (some ent, er) ↔
          (er = none ∧ ent.existsInDB = true
            ∧ db.queryRow (tFirstStmt qs) (tAllParams qs) =
                .ok [Val.vint ent.id, Val.vstr ent.name]))
    ∧ (∀ e : Err, e ≠ Err.noRows →
        db.queryRow (tFirstStmt qs) (tAllParams qs) = .error e →
          tFirst db qs = (none, some e)) := by
  refine ⟨rfl, ?_, ?_, ?_, ?_⟩
  · rcases hq : db.queryRow (tFirstStmt qs) (tAllParams qs) with e | r
    · cases e <;> simp [tFirst, hq]
    · rcases hd : decodeT r with _ | p <;> simp [tFirst, hq, hd]
  · rcases hq : db.queryRow (tFirstStmt qs) (tAllParams qs) with e | r
    · cases e <;> simp [tFirst, hq]
    · rcases hd : decodeT r with _ | p
      · simp [tFirst, hq, hd]
        intro i n hr
        subst hr
        simp [decodeT] at hd
      · have hr := decodeT_some r p hd
        subst hr
        simp [tFirst, hq, hd]
  · rcases hq : db.queryRow (tFirstStmt qs) (tAllParams qs) with e | r
    · cases e <;> simp [tFirst, hq]
    · rcases hd : decodeT r with _ | p
      · intro ent er
        simp [tFirst, hq, hd]
        rintro rfl h2 h3
        subst h3
        simp [decodeT] at hd
      · have hr := decodeT_some r p hd
        subst hr
        rintro ⟨fl, ei, en⟩ er
        simp [tFirst, hq, hd]
        constructor
        · rintro ⟨⟨h1, h2, h3⟩, h4⟩
          exact ⟨h4.symm, h1, h2, h3⟩
        · rintro ⟨h4, h1, h2, h3⟩
          exact ⟨⟨h1, h2, h3⟩, h4.symm⟩
  · intro e hne hqe
    cases e with
    | noRows => exact absurd rfl hne
    | scan => simp [tFirst, hqe]
    | store n => simp [tFirst, hqe]

/-- Witness for C3's propagation conjunct: against a store that fails every
call with the opaque error `store 3`, `First` returns a nil record together
with exactly that error. -/
theorem c3_first_three_outcomes_witness :
    tFirst dbDown {} = (none, some (Err.store 3)) :=
  (c3_first_three_outcomes dbDown {}).2.2.2.2 (Err.store 3) (by decide) rfl

end DjanGoRm

namespace DjanGoRm

/-- Compiling a concatenation of fragment lists threads one counter through in
order: the second part compiles from the counter value the first part left. -/
theorem compileEach_append (xs ys : List Frag) (c : Nat) :
    compileEach (xs ++ ys) c =
      ((compileEach xs c).1 ++ (compileEach ys (compileEach xs c).2.2).1,
       (compileEach xs c).2.1 ++ (compileEach ys (compileEach xs c).2.2).2.1,
       (compileEach ys (compileEach xs c).2.2).2.2) := by
  induction xs generalizing c with
  | nil => simp [compileEach]
  | cons f rest ih =>
      rcases hf : f.compile c with ⟨t, p, c'⟩
      rcases hr : compileEach rest c' with ⟨ts, ps, c''⟩
      rcases hy : compileEach ys c'' with ⟨ts2, ps2, c3⟩
      simp [compileEach, hf, hr, hy, ih, List.append_assoc]

/-- The subquery-membership fragment compiles its correlated WHERE clause with
the caller's counter value and embeds the result inline. -/
theorem compile_inSubquery (stmt col : String) (sub : List Frag) (c : Nat) :
    Frag.compile (Frag.inSubquery stmt col sub) c =
      (col ++ " IN (" ++ stmt ++ (whereCompile sub c).1 ++ ")",
       (whereCompile sub c).2.1, (whereCompile sub c).2.2) := by
  cases sub with
  | nil => simp [Frag.compile, whereCompile]
  | cons f rest =>
      rcases hc : compileEach (f :: rest) c with ⟨ts, ps, c'⟩
      simp [Frag.compile, whereCompile, hc, String.append_assoc]

/-- C9: the generated foreign-key subquery fragment compiles by calling the
correlated queryset's `QueryId` with the enclosing statement's own counter, so
(first conjunct) its text embeds `col IN (<QueryId text>)` inline with the
correlated params returned to the caller; (second conjunct) in any enclosing
fragment sequence the subquery's WHERE clause compiles from exactly the
counter value the preceding fragments left, so its placeholder numbers
continue the outer numbering; concretely (third conjunct) an outer filter
followed by a subquery membership compiles to
`"x" = $1 AND "a_id" IN (SELECT "id" FROM "t" WHERE "name" = $2)`. -/
theorem c9_subquery_shares_counter :
    (∀ (m : GoSchema) (col : String) (sub : List Frag) (c : Nat),
      Frag.compile (Frag.inSubquery m.selectIdStmt col sub) c =
        (col ++ " IN (" ++ (queryId m sub c).1 ++ ")",
         (queryId m sub c).2.1, (queryId m sub c).2.2))
    ∧ (∀ (stmt col : String) (sub pre : List Frag) (c : Nat),
      compileEach (pre ++ [Frag.inSubquery stmt col sub]) c =
        ((compileEach pre c).1
            ++ [col ++ " IN (" ++ stmt ++ (whereCompile sub (compileEach pre c).2.2).1 ++ ")"],
         (compileEach pre c).2.1 ++ (whereCompile sub (compileEach pre c).2.2).2.1,
         (whereCompile sub (compileEach pre c).2.2).2.2))
    ∧ whereCompile [Frag.unary "\"x\" =" (Val.vint 1),
        Frag.inSubquery modelT.selectIdStmt "\"a_id\"" [Frag.unary "\"name\" =" (Val.vstr "z")]] 0 =
        (" WHERE \"x\" = $1 AND \"a_id\" IN (SELECT \"id\" FROM \"t\" WHERE \"name\" = $2)",
         [Val.vint 1, Val.vstr "z"], 2) := by
  refine ⟨?_, ?_, ?_⟩
  · intro m col sub c
    rcases hw : whereCompile sub c with ⟨ws, wp, c'⟩
    simp [compile_inSubquery, queryId, hw, String.append_assoc]
  · intro stmt col sub pre c
    rw [compileEach_append]
    rcases hp : compileEach pre c with ⟨ts, ps, c1⟩
    rcases hw : whereCompile sub c1 with ⟨ws, wp, c2⟩
    simp [compileEach, compile_inSubquery, hw, hp]
  · simp [whereCompile, compileEach, Frag.compile, pcGet, modelT,
      GoSchema.selectIdStmt, GoSchema.pk, quoteId]
    rfl

end DjanGoRm

namespace DjanGoRm

/-- Inversion for the RETURNING scan of `modelT`'s insert: a successful scan
pins the row to the single autogenerated id column. -/
theorem decodeTAuto_some (r : List Val) (i : Int) (h : decodeTAuto r = some i) :
    r = [Val.vint i] := by
  unfold decodeTAuto at h
  split at h
  · rcases h with ⟨⟩
    rfl
  · exact absurd h (by simp)

/-- C10: for a record with `existsInDB = false`, `Save` takes the insert
path; when the insert round trip fails the record — in particular its
existence flag — is left untouched, so a retried `Save` attempts the INSERT
again (last conjunct); and across all stores, the flag ends up true exactly
when the insert's QueryRow-and-scan round trip succeeded. -/
theorem c10_insert_sets_flag_only_on_success (db : DB) (e : TRec) (er : Err)
    (h : e.existsInDB = false)
    (hfail : db.queryRow tInsertStmt [Val.vstr e.name] = .error er) :
    tSave db e = tInsert db e
    ∧ tInsert db e = ([DBCall.queryRow tInsertStmt [Val.vstr e.name]], e, some er)
    ∧ (∀ db2 : DB, ((tInsert db2 e).2.1.existsInDB = true ↔
        ∃ i : Int, db2.queryRow tInsertStmt [Val.vstr e.name] = .ok [Val.vint i]))
    ∧ tSave db (tInsert db e).2.1 = tInsert db e := by
  have h2 : tInsert db e = ([DBCall.queryRow tInsertStmt [Val.vstr e.name]], e, some er) := by
    simp [tInsert, hfail]
  have h1 : tSave db e = tInsert db e := by
    simp [tSave, h]
  refine ⟨h1, h2, ?_, ?_⟩
  · intro db2
    rcases hq : db2.queryRow tInsertStmt [Val.vstr e.name] with e2 | r
    · simp [tInsert, hq, h]
    · rcases hd : decodeTAuto r with _ | i
      · simp [tInsert, hq, hd, h]
        rintro i rfl
        simp [decodeTAuto] at hd
      · have hr := decodeTAuto_some r i hd
        subst hr
        simp [tInsert, hq, hd]
  · rw [h2]
    exact h1.trans h2

/-- Witness for C10: a fresh record saved against the failing store issues the
insert, is returned unchanged with the error, and would insert again. -/
theorem c10_insert_sets_flag_only_on_success_witness :
    tSave dbDown ⟨false, 0, "x"⟩ = tInsert dbDown ⟨false, 0, "x"⟩
    ∧ tInsert dbDown ⟨false, 0, "x"⟩ =
        ([DBCall.queryRow tInsertStmt [Val.vstr "x"]], ⟨false, 0, "x"⟩, some (Err.store 3))
    ∧ (∀ db2 : DB, ((tInsert db2 ⟨false, 0, "x"⟩).2.1.existsInDB = true ↔
        ∃ i : Int, db2.queryRow tInsertStmt [Val.vstr "x"] = .ok [Val.vint i]))
    ∧ tSave dbDown (tInsert dbDown ⟨false, 0, "x"⟩).2.1 = tInsert dbDown ⟨false, 0, "x"⟩ :=
  c10_insert_sets_flag_only_on_success dbDown ⟨false, 0, "x"⟩ (Err.store 3) rfl rfl

end DjanGoRm

namespace DjanGoRm

/-- A store whose `query` yields exactly one row `(5, "x")` and whose
`queryRow` yields that row. -/
def dbOne : DB :=
  ⟨fun _ _ => .ok [Val.vint 5, Val.vstr "x"],
   fun _ _ => .ok ([[Val.vint 5, Val.vstr "x"]], none),
   fun _ _ => .ok 1⟩

/-- C8 counterexample: against a store matching zero rows, `All` returns NO
error but a nil (null) sequence — `var ret TList` is never appended to and is
returned as the nil slice (template lines 595-604) — refuting the claim that
the zero-row result is a non-null sequence. -/
theorem c8_all_nil_on_zero_rows :
    (tAll dbOk {}).1 = none ∧ (tAll dbOk {}).2 = none := by
  constructor <;> rfl

/-- The row loop of `All` over well-formed rows accumulates with Go append. -/
theorem tAllLoop_decoded (rs : List (Int × String)) (acc : GoListT) :
    tAllLoop (rs.map (fun p => [Val.vint p.1, Val.vstr p.2])) acc =
      (rs.foldl (fun a p => goAppendT a ⟨true, p.1, p.2⟩) acc, none) := by
  induction rs generalizing acc with
  | nil => simp [tAllLoop]
  | cons p rest ih => simp [tAllLoop, decodeT, ih]

/-- Folding Go append from a non-nil slice stays non-nil and concatenates. -/
theorem goAppendT_foldl (rs : List (Int × String)) (acc : List TRec) :
    rs.foldl (fun a p => goAppendT a ⟨true, p.1, p.2⟩) (some acc) =
      some (acc ++ rs.map (fun p => ⟨true, p.1, p.2⟩)) := by
  induction rs generalizing acc with
  | nil => simp
  | cons p rest ih =>
      rw [List.foldl_cons]
      have hstep : goAppendT (some acc) ⟨true, p.1, p.2⟩ =
          some (acc ++ [⟨true, p.1, p.2⟩]) := rfl
      rw [hstep, ih]
      simp

/-- Every record scanned by `All` carries the existence flag. -/
theorem mem_map_trec (rs : List (Int × String)) :
    ∀ e ∈ rs.map (fun p => (⟨true, p.1, p.2⟩ : TRec)), e.existsInDB = true := by
  intro e he
  rcases List.mem_map.1 he with ⟨a, _, rfl⟩
  rfl

/-- C8 amended: when the store returns rows successfully, `All` returns no
error; the result is the NIL slice when zero rows matched and otherwise a
non-nil sequence of new records scanned in row order, each with
`existsInDB = true`. -/
theorem c8_all_amended (db : DB) (qs : QS) (rs : List (Int × String)) (re : Option Err)
    (h : db.query (tAllStmt qs) (tAllParams qs) =
      .ok (rs.map (fun p => [Val.vint p.1, Val.vstr p.2]), re)) :
    tAll db qs =
      ((if rs = [] then none else some (rs.map (fun p => ⟨true, p.1, p.2⟩))), none)
    ∧ ∀ e ∈ ((tAll db qs).1.getD []), e.existsInDB = true := by
  have hmain : tAll db qs =
      ((if rs = [] then none else some (rs.map (fun p => ⟨true, p.1, p.2⟩))), none) := by
    simp only [tAll, h]
    rw [tAllLoop_decoded]
    cases rs with
    | nil => simp
    | cons p rest =>
        rw [List.foldl_cons]
        have hstep : goAppendT none ⟨true, p.1, p.2⟩ = some [⟨true, p.1, p.2⟩] := rfl
        rw [hstep, goAppendT_foldl]
        simp
  refine ⟨hmain, ?_⟩
  rw [hmain]
  cases rs with
  | nil => simp
  | cons p rest =>
      simp only [List.cons_ne_nil, if_false, Option.getD_some]
      exact mem_map_trec (p :: rest)

/-- Witness for the amended C8: one returned row yields a non-nil singleton
sequence, no error, and the record carries the existence flag. -/
theorem c8_all_amended_witness :
    tAll dbOne {} =
      ((if ([(5, "x")] : List (Int × String)) = [] then none
        else some (([(5, "x")] : List (Int × String)).map (fun p => ⟨true, p.1, p.2⟩))), none)
    ∧ ∀ e ∈ ((tAll dbOne {}).1.getD []), e.existsInDB = true :=
  c8_all_amended dbOne {} [(5, "x")] none rfl

end DjanGoRm

namespace DjanGoRm

/-- Against a store whose updates succeed, the first `UList.Save` loop issues
one per-record UPDATE for each record with `existsInDB = true`, in order, and
collects exactly the remaining records for the batch insert. -/
theorem uPass1_ok (db : DB) (hex : ∀ s p, db.exec s p = .ok 1) (l : List URec) :
    uPass1 db l =
      ((l.filter (·.existsInDB)).map uUpdateCall,
       .ok (l.filter (fun e => !e.existsInDB))) := by
  induction l with
  | nil => simp [uPass1]
  | cons e rest ih =>
      by_cases he : e.existsInDB
      · simp [uPass1, he, hex, ih, List.filter_cons, uUpdateCall]
      · simp [uPass1, he, ih, List.filter_cons, Except.map]

/-- The batch-building loop produces one VALUES tuple per row whose
placeholder offset advances by the per-row insert column count, and the
per-row insert members flattened in submission order. -/
theorem uBatchLoop_eq (l : List URec) (offs : Nat) :
    uBatchLoop l offs =
      ((List.range l.length).map
          (fun i => modelU.valuesTuple (offs + modelU.insertColCount * i)),
       uBatchParams l) := by
  induction l generalizing offs with
  | nil => simp [uBatchLoop, uBatchParams]
  | cons e rest ih =>
      have harith : ∀ i : Nat,
          offs + modelU.insertColCount * (i + 1) =
            offs + modelU.insertColCount + modelU.insertColCount * i := by
        intro i
        ring
      simp [uBatchLoop, uBatchParams, ih, List.range_succ_eq_map, Nat.succ_eq_add_one,
        List.map_map, Function.comp, harith]

/-- Consuming exactly as many RETURNING rows as submitted records assigns the
i-th id to the i-th record and sets its existence flag. -/
theorem uScan_ok (ids : List Int) (news : List URec) (h : news.length = ids.length) :
    uScan (ids.map (fun i => [Val.vint i])) none news =
      (List.zipWith (fun e i => { e with id := i, existsInDB := true }) news ids, none) := by
  induction news generalizing ids with
  | nil => simp [uScan]
  | cons e rest ih =>
      cases ids with
      | nil => simp at h
      | cons i is' =>
          simp only [List.length_cons, Nat.add_right_cancel_iff] at h
          simp [uScan, ih is' h]

/-- Replacing each non-existing record of the original list, in order, by its
scanned counterpart reconstructs the claimed final state. -/
theorem uMerge_spec (l : List URec) (ids : List Int)
    (h : ids.length = (l.filter (fun e => !e.existsInDB)).length) :
    uMerge l (List.zipWith (fun e i => { e with id := i, existsInDB := true })
        (l.filter (fun e => !e.existsInDB)) ids) = uMergeSpec l ids := by
  induction l generalizing ids with
  | nil => simp [uMerge, uMergeSpec]
  | cons e rest ih =>
      by_cases he : e.existsInDB
      · simp only [List.filter_cons] at h ⊢
        simp only [he, Bool.not_true, Bool.false_eq_true, if_false] at h ⊢
        simp [uMerge, uMergeSpec, he, ih ids h]
      · simp only [List.filter_cons] at h ⊢
        simp [he] at h ⊢
        cases ids with
        | nil => simp at h
        | cons i is' =>
            simp only [List.length_cons, Nat.add_right_cancel_iff] at h
            simp [uMerge, uMergeSpec, he, ih is' h]

/-- With enough RETURNING ids for every new record, every record of the final
list carries the existence flag. -/
theorem uMergeSpec_flags (l : List URec) (ids : List Int)
    (h : (l.filter (fun e => !e.existsInDB)).length ≤ ids.length) :
    ∀ e ∈ uMergeSpec l ids, e.existsInDB = true := by
  induction l generalizing ids with
  | nil => simp [uMergeSpec]
  | cons e rest ih =>
      by_cases he : e.existsInDB
      · simp only [List.filter_cons] at h
        simp only [he, Bool.not_true, Bool.false_eq_true, if_false] at h
        simp [uMergeSpec, he]
        exact fun x hx => ih ids h x hx
      · simp only [List.filter_cons] at h
        simp [he] at h
        cases ids with
        | nil =>
            exact absurd h (by simp)
        | cons i is' =>
            simp only [List.length_cons, Nat.add_le_add_iff_right] at h
            simp [uMergeSpec, he]
            exact fun x hx => ih is' h x hx

/-- C6: batch-saving a list holding N new and M existing records against a
successful store issues exactly the M individual UPDATEs (in list order)
followed by ONE multi-row INSERT whose i-th VALUES tuple has placeholders
offset by `1 + insert-column-count * i` (a fixed stride equal to the per-row
insert column count) and whose parameters are the new records' insert members
in submission order; the RETURNING rows are scanned back into the new records
in submission order, and every record of the final list — in particular every
inserted one — ends with `existsInDB = true`. -/
theorem c6_batch_save (db : DB) (l : List URec) (ids : List Int)
    (hex : ∀ s p, db.exec s p = .ok 1)
    (hlen : ids.length = (l.filter (fun e => !e.existsInDB)).length)
    (hq : db.query (uBatchStmt (l.filter (fun e => !e.existsInDB)).length)
            (uBatchParams (l.filter (fun e => !e.existsInDB))) =
        .ok (ids.map (fun i => [Val.vint i]), none))
    (hne : l.filter (fun e => !e.existsInDB) ≠ []) :
    uListSave db l =
      ((l.filter (·.existsInDB)).map uUpdateCall
         ++ [DBCall.query (uBatchStmt (l.filter (fun e => !e.existsInDB)).length)
              (uBatchParams (l.filter (fun e => !e.existsInDB)))],
       uMergeSpec l ids, none)
    ∧ ∀ e ∈ (uListSave db l).2.1, e.existsInDB = true := by
  have hie : (l.filter (fun e => !e.existsInDB)).isEmpty = false := by
    cases hnn : l.filter (fun e => !e.existsInDB) with
    | nil => exact absurd hnn hne
    | cons a t => simp
  have hmain : uListSave db l =
      ((l.filter (·.existsInDB)).map uUpdateCall
         ++ [DBCall.query (uBatchStmt (l.filter (fun e => !e.existsInDB)).length)
              (uBatchParams (l.filter (fun e => !e.existsInDB)))],
       uMergeSpec l ids, none) := by
    simp only [uBatchStmt] at hq ⊢
    unfold uListSave
    rw [uPass1_ok db hex l]
    simp only [hie, Bool.false_eq_true, if_false]
    rw [uBatchLoop_eq]
    simp only []
    rw [hq]
    simp only []
    rw [uScan_ok ids _ hlen.symm]
    rw [uMerge_spec l ids hlen]
  refine ⟨hmain, ?_⟩
  rw [hmain]
  exact uMergeSpec_flags l ids (le_of_eq hlen.symm)

/-- A store for the batch-save witness: updates succeed and the batch INSERT
returns the two ids 10 and 11. -/
def dbBatch : DB :=
  ⟨fun _ _ => .error Err.noRows,
   fun _ _ => .ok ([[Val.vint 10], [Val.vint 11]], none),
   fun _ _ => .ok 1⟩

/-- The witness list: one existing record followed by two new ones. -/
def c6List : List URec :=
  [⟨true, 1, "p", "q"⟩, ⟨false, 0, "a1", "b1"⟩, ⟨false, 0, "a2", "b2"⟩]

/-- Witness for C6: saving the mixed list issues one UPDATE and one two-row
INSERT, and the final list is the claimed merged state with all flags set. -/
theorem c6_batch_save_witness :
    uListSave dbBatch c6List =
      ((c6List.filter (·.existsInDB)).map uUpdateCall
         ++ [DBCall.query (uBatchStmt (c6List.filter (fun e => !e.existsInDB)).length)
              (uBatchParams (c6List.filter (fun e => !e.existsInDB)))],
       uMergeSpec c6List [10, 11], none)
    ∧ ∀ e ∈ (uListSave dbBatch c6List).2.1, e.existsInDB = true :=
  c6_batch_save dbBatch c6List [10, 11] (fun _ _ => rfl) rfl rfl
    (List.cons_ne_nil _ _)

end DjanGoRm
